import Mathlib

/-!
Verification of the core of the Sum-Game-for-Kids application (`src/app.py`):
the Query Gateway (`execute_query` over a lazily created connection pool),
the Player Store (`get_player_score`, `create_player`, `update_player_score`,
`get_leaderboard`, `prune_players`), the Quiz Engine (`generate_questions`),
and the Session State Machine (the `/` and `/game` route handlers acting on
the per-player session).

Randomness is modelled by an injected stream `g : Nat → Nat` of raw draws
consumed at successive positions; database timestamps (`NOW()`) are injected
`Nat` parameters; the outcome of running one SQL statement against the
database server is an injected `Outcome` (success, statement-level error, or
connectivity error), mirroring the three exception paths of `execute_query`.
-/

namespace SumGame

/-! ## Quiz Engine (`generate_questions`, src/app.py lines 251-272) -/

/-- Operator of a question: `'+'` or `'-'` in the source. -/
inductive Op where
  | add
  | sub
deriving DecidableEq, Repr

/-- One generated question: `{'a': a, 'b': b, 'op': op, 'answer': answer}`. -/
structure Question where
  a : Nat
  b : Nat
  op : Op
  answer : Nat
deriving DecidableEq, Repr

/-- Models `random.randint(0, 999)` applied to one raw draw. -/
def randint999 (v : Nat) : Nat := v % 1000

/-- Models `random.choice(['+', '-'])` applied to one raw draw. -/
def randOp (v : Nat) : Op := if v % 2 = 0 then Op.add else Op.sub

/-- One iteration of the loop body of `generate_questions`: consumes the
draws at positions `i`, `i+1`, `i+2` of the stream `g` (operator, `a`, `b`).
For `'-'`, operands are swapped when `b > a` so the answer is non-negative. -/
def genQuestion (g : Nat → Nat) (i : Nat) : Question :=
  match randOp (g i) with
  | Op.add =>
    let a := randint999 (g (i + 1))
    let b := randint999 (g (i + 2))
    { a := a, b := b, op := Op.add, answer := a + b }
  | Op.sub =>
    let a := randint999 (g (i + 1))
    let b := randint999 (g (i + 2))
    if b > a then { a := b, b := a, op := Op.sub, answer := b - a }
    else { a := a, b := b, op := Op.sub, answer := a - b }

/-- `generate_questions(count)` over the injected draw stream `g`, starting
at stream position `i`; each loop iteration consumes three draws. -/
def generate_questions (count : Nat) (g : Nat → Nat) (i : Nat) : List Question :=
  match count with
  | 0 => []
  | n + 1 => genQuestion g i :: generate_questions n g (i + 3)

/-! ## Query Gateway (`get_db_pool` / `execute_query`, src/app.py lines 57-136) -/

/-- A pooled connection, identified by (pool id, serial within the pool). -/
abbrev Conn := Nat × Nat

/-- Model of a `psycopg2` `SimpleConnectionPool`: connections available for
`getconn`, connections currently handed out, and how many have been created. -/
structure Pool where
  free : List Conn
  inUse : List Conn
  spawned : Nat
deriving DecidableEq, Repr

/-- A freshly created pool (`SimpleConnectionPool(1, 10, ...)`): the minimum
of one connection is opened eagerly. -/
def Pool.new (pid : Nat) : Pool :=
  { free := [(pid, 0)], inUse := [], spawned := 1 }

/-- `pool.getconn()`: hand out a free connection, opening a new one when the
free list is empty. -/
def Pool.getconn (pid : Nat) (p : Pool) : Conn × Pool :=
  match p.free with
  | c :: rest => (c, { p with free := rest, inUse := c :: p.inUse })
  | [] => ((pid, p.spawned),
      { p with spawned := p.spawned + 1, inUse := (pid, p.spawned) :: p.inUse })

/-- `pool.putconn(conn)`: return a connection to the pool's free list. -/
def Pool.putconn (p : Pool) (c : Conn) : Pool :=
  { p with free := c :: p.free, inUse := p.inUse.erase c }

/-- Process-wide gateway state: whether `DATABASE_URL` is configured, every
pool object ever created (keyed by pool id), the global `_db_pool` reference
(by id, `none` after a reset), and the id for the next pool to be created. -/
structure GState where
  databaseUrl : Bool
  pools : List (Nat × Pool)
  dbPool : Option Nat
  nextPoolId : Nat
deriving DecidableEq, Repr

/-- Look up a pool object by id. -/
def GState.findPool (s : GState) (pid : Nat) : Option Pool :=
  (s.pools.find? (fun e => e.1 == pid)).map (fun e => e.2)

/-- Replace the pool object stored under `pid`. -/
def GState.setPool (s : GState) (pid : Nat) (p : Pool) : GState :=
  { s with pools := s.pools.map (fun e => if e.1 == pid then (pid, p) else e) }

/-- `get_db_pool()`: `none` when `DATABASE_URL` is unset; otherwise return
the global pool, creating it lazily on first use. -/
def get_db_pool (s : GState) : Option Nat × GState :=
  if s.databaseUrl then
    match s.dbPool with
    | some pid => (some pid, s)
    | none =>
      let pid := s.nextPoolId
      (some pid,
        { s with pools := (pid, Pool.new pid) :: s.pools,
                 dbPool := some pid, nextPoolId := pid + 1 })
  else (none, s)

/-- What the database server does with the single statement of one
`execute_query` call: it runs and commits, it raises a statement-level
error (the generic `Exception` branch, rolled back), or it raises an
`OperationalError` (connectivity broken). -/
inductive Outcome where
  | success
  | statementError
  | connError
deriving DecidableEq, Repr

/-- Observable record of one `execute_query` call: whether the statement
executed and committed, and which connection of which pool was acquired. -/
structure ExecLog where
  ran : Bool
  acquiredPool : Option Nat
  acquiredConn : Option Conn
deriving DecidableEq, Repr

/-- `execute_query`: obtain the pool (`None` disables the call), acquire a
connection, run the statement; on `OperationalError` the global `_db_pool`
is reset to `None`; in every path the `finally` block returns the connection
to the local `pool` variable — the pool object it was acquired from. -/
def execute_query (s : GState) (out : Outcome) : ExecLog × GState :=
  match get_db_pool s with
  | (none, s1) => ({ ran := false, acquiredPool := none, acquiredConn := none }, s1)
  | (some pid, s1) =>
    match s1.findPool pid with
    | none => ({ ran := false, acquiredPool := none, acquiredConn := none }, s1)
    | some p =>
      let cp := Pool.getconn pid p
      match out with
      | Outcome.success =>
        ({ ran := true, acquiredPool := some pid, acquiredConn := some cp.1 },
          s1.setPool pid (Pool.putconn cp.2 cp.1))
      | Outcome.statementError =>
        ({ ran := false, acquiredPool := some pid, acquiredConn := some cp.1 },
          s1.setPool pid (Pool.putconn cp.2 cp.1))
      | Outcome.connError =>
        ({ ran := false, acquiredPool := some pid, acquiredConn := some cp.1 },
          { s1.setPool pid (Pool.putconn cp.2 cp.1) with dbPool := none })

/-! ## Player table and SQL statement semantics (src/app.py lines 144-243) -/

/-- One row of the `players` table. -/
structure PlayerRow where
  id : Nat
  name : String
  total_score : Int
  last_played : Nat
deriving DecidableEq, Repr

/-- The `players` table plus the `SERIAL` sequence behind `id`. -/
structure DB where
  rows : List PlayerRow
  nextId : Nat
deriving DecidableEq, Repr

/-- Semantics of `SELECT total_score FROM players WHERE name = %s` with
`fetchone`: the first matching row's score, if any. -/
def sql_get_score (db : DB) (name : String) : Option Int :=
  (db.rows.find? (fun r => r.name == name)).map (fun r => r.total_score)

/-- Semantics of `INSERT ... VALUES (%s, 0, NOW()) ON CONFLICT (name) DO
NOTHING`: append a fresh row unless one with this name exists. -/
def sql_create_player (db : DB) (name : String) (now : Nat) : DB :=
  if db.rows.any (fun r => r.name == name) then db
  else { rows := db.rows ++ [{ id := db.nextId, name := name,
                               total_score := 0, last_played := now }],
         nextId := db.nextId + 1 }

/-- Semantics of `UPDATE players SET total_score = total_score + %s,
last_played = NOW() WHERE name = %s`: one statement touching every matching
row. -/
def sql_update_score (db : DB) (name : String) (delta : Int) (now : Nat) : DB :=
  { db with rows := db.rows.map (fun r =>
      if r.name == name then
        { r with total_score := r.total_score + delta, last_played := now }
      else r) }

/-- Ordering of `ORDER BY total_score DESC, last_played ASC`. -/
def boardOrder (r1 r2 : PlayerRow) : Prop :=
  r2.total_score < r1.total_score ∨
    (r1.total_score = r2.total_score ∧ r1.last_played ≤ r2.last_played)

instance : DecidableRel boardOrder := fun r1 r2 =>
  inferInstanceAs (Decidable (r2.total_score < r1.total_score ∨
    (r1.total_score = r2.total_score ∧ r1.last_played ≤ r2.last_played)))

/-- Semantics of the leaderboard query: sort, take `limit`, project. -/
def sql_leaderboard (db : DB) (limit : Nat) : List (String × Int) :=
  ((List.insertionSort boardOrder db.rows).take limit).map
    (fun r => (r.name, r.total_score))

/-- Ordering of `ORDER BY last_played DESC`. -/
def byLastPlayedDesc (r1 r2 : PlayerRow) : Prop :=
  r2.last_played ≤ r1.last_played

instance : DecidableRel byLastPlayedDesc := fun r1 r2 =>
  inferInstanceAs (Decidable (r2.last_played ≤ r1.last_played))

/-- The rows ordered by `last_played DESC`. -/
def sortByLastPlayed (rows : List PlayerRow) : List PlayerRow :=
  List.insertionSort byLastPlayedDesc rows

/-- Semantics of the one set-based delete of `prune_players`:
`DELETE FROM players WHERE id NOT IN (SELECT id FROM players ORDER BY
last_played DESC LIMIT %s)`. -/
def sql_prune (db : DB) (m : Nat) : DB :=
  let keptIds := ((sortByLastPlayed db.rows).take m).map (fun r => r.id)
  { db with rows := db.rows.filter (fun r => decide (r.id ∈ keptIds)) }

/-! ## Player Store over the Gateway (src/app.py lines 163-243) -/

/-- Combined state threaded through a Player Store call: the gateway's pool
state and the database content. -/
structure St where
  gw : GState
  db : DB
deriving DecidableEq, Repr

/-- `get_player_score(name)`: `row[0] if row else None`; `None` whenever the
gateway reports unavailability. -/
def get_player_score (st : St) (out : Outcome) (name : String) :
    Option Int × St :=
  let r := execute_query st.gw out
  ((if r.1.ran then sql_get_score st.db name else none),
    { gw := r.2, db := st.db })

/-- `create_player(name)`: the upsert runs only when the statement commits. -/
def create_player (st : St) (out : Outcome) (name : String) (now : Nat) : St :=
  let r := execute_query st.gw out
  { gw := r.2, db := if r.1.ran then sql_create_player st.db name now else st.db }

/-- `update_player_score(name, additional_points)`: the single `UPDATE`
statement runs only when it commits. -/
def update_player_score (st : St) (out : Outcome) (name : String)
    (delta : Int) (now : Nat) : St :=
  let r := execute_query st.gw out
  { gw := r.2, db := if r.1.ran then sql_update_score st.db name delta now else st.db }

/-- `get_leaderboard(limit)`: `rows or []`. -/
def get_leaderboard (st : St) (out : Outcome) (limit : Nat) :
    List (String × Int) × St :=
  let r := execute_query st.gw out
  ((if r.1.ran then sql_leaderboard st.db limit else []),
    { gw := r.2, db := st.db })

/-- `prune_players(max_players)`: the single set-based `DELETE` runs only
when it commits. -/
def prune_players (st : St) (out : Outcome) (m : Nat) : St :=
  let r := execute_query st.gw out
  { gw := r.2, db := if r.1.ran then sql_prune st.db m else st.db }

/-! ## Session State Machine (`index` / `game` routes, src/app.py lines 291-404) -/

/-- Python's `str.strip()`: remove leading and trailing whitespace. -/
def py_strip (s : String) : String :=
  String.mk (((s.data.dropWhile Char.isWhitespace).reverse.dropWhile
    Char.isWhitespace).reverse)

/-- Value of a list of decimal digit characters. -/
def digitsVal (cs : List Char) : Nat :=
  cs.foldl (fun acc c => acc * 10 + (c.toNat - 48)) 0

/-- Python's `int(text)` on already-stripped text, returning `None` in place
of `ValueError`: an optional sign followed by at least one decimal digit.
(Grouping underscores and non-ASCII digits are not modelled.) -/
def py_int? (s : String) : Option Int :=
  match s.data with
  | [] => none
  | '-' :: rest =>
    if rest.isEmpty then none
    else if rest.all Char.isDigit then some (-(digitsVal rest : Int)) else none
  | '+' :: rest =>
    if rest.isEmpty then none
    else if rest.all Char.isDigit then some ((digitsVal rest : Int)) else none
  | cs =>
    if cs.all Char.isDigit then some ((digitsVal cs : Int)) else none

/-- The per-player session cookie contents set up by the routes. -/
structure Sess where
  name : String
  session_score : Nat
  questions : List Question
  current_index : Nat
  feedback : Option String
  final_score : Nat
deriving DecidableEq, Repr

/-- HTTP method of a `/game` request. -/
inductive Method where
  | get
  | post
deriving DecidableEq, Repr

/-- One Player Store call made by a route handler, recorded in order. -/
inductive StoreCall where
  | ensure (name : String)
  | readScore (name : String)
  | readBoard
  | commit (name : String) (delta : Nat)
  | prune (m : Nat)
deriving DecidableEq, Repr

/-- The `update_player_score` (commit) calls of a trace, with their deltas. -/
def commitCalls (t : List StoreCall) : List (String × Nat) :=
  t.filterMap (fun c => match c with
    | StoreCall.commit n d => some (n, d)
    | _ => none)

/-- The `POST /` branch of `index` with a non-empty name (src/app.py lines
310-319): initialize the session state and call `create_player`. -/
def index_post (name : String) (g : Nat → Nat) (i : Nat) :
    Sess × List StoreCall :=
  ({ name := name, session_score := 0, questions := generate_questions 10 g i,
     current_index := 0, feedback := none, final_score := 0 },
   [StoreCall.ensure name])

/-- The answer-processing step of `game` (src/app.py lines 342-358), run on
a `POST` with a non-empty question list: parse the (already stripped) text
with `int(...)`, and when `current_index` is in range, grade the current
question, record feedback, and advance the index by one. -/
def gradeStep (s : Sess) (answer_text : String) : Sess :=
  let user_answer := py_int? answer_text
  match s.questions[s.current_index]? with
  | none => s
  | some q =>
    let correct := q.answer
    if user_answer = some (correct : Int) then
      { s with session_score := s.session_score + 1,
               feedback := some "Correct!",
               current_index := s.current_index + 1 }
    else
      { s with feedback :=
                 some ("Incorrect! The correct answer was "
                   ++ toString correct ++ "."),
               current_index := s.current_index + 1 }

/-- The `/game` route handler on the session state (src/app.py lines
326-404). It first reads the player's total score and the leaderboard; a
`POST` with a non-empty question list runs `gradeStep`, and when the index
has reached the question count it commits the session score via
`update_player_score`, runs `prune_players()`, stores the final score and
resets the session fields, then re-reads score and leaderboard. -/
def game (m : Method) (raw : String) (s : Sess) : Sess × List StoreCall :=
  let pre := [StoreCall.readScore s.name, StoreCall.readBoard]
  match m with
  | Method.get => (s, pre)
  | Method.post =>
    if s.questions.isEmpty then (s, pre)
    else
      let s1 := gradeStep s (py_strip raw)
      if s1.questions.length ≤ s1.current_index then
        ({ s1 with final_score := s1.session_score, session_score := 0,
                   questions := [], current_index := 0 },
         pre ++ [StoreCall.commit s.name s1.session_score, StoreCall.prune 100,
                 StoreCall.readScore s.name, StoreCall.readBoard])
      else (s1, pre)

/-- Run a list of `POST /game` submissions in order, concatenating the
Player Store call traces. -/
def runAnswers (s : Sess) (answers : List String) : Sess × List StoreCall :=
  match answers with
  | [] => (s, [])
  | a :: rest =>
    let r1 := game Method.post a s
    let r2 := runAnswers r1.1 rest
    (r2.1, r1.2 ++ r2.2)

/-- How many of the submitted texts, graded in order against the questions
starting at index `k`, parse to the current question's answer. -/
def countCorrectFrom (qs : List Question) (k : Nat) (answers : List String) :
    Nat :=
  match answers with
  | [] => 0
  | a :: rest =>
    (match qs[k]? with
     | some q => if py_int? (py_strip a) = some ((q.answer : Int)) then 1 else 0
     | none => 0) + countCorrectFrom qs (k + 1) rest

/-- Session states reachable through the routes: a fresh session created by
`POST /`, followed by any sequence of `/game` requests. -/
inductive Reachable : Sess → Prop where
  | start (name : String) (g : Nat → Nat) (i : Nat) :
      Reachable (index_post name g i).1
  | step (m : Method) (raw : String) (s : Sess) :
      Reachable s → Reachable (game m raw s).1

/-! ## Helper lemmas -/

lemma randint999_le (v : Nat) : randint999 v ≤ 999 :=
  Nat.lt_succ_iff.mp (Nat.mod_lt _ (by norm_num))

lemma genQuestion_spec (g : Nat → Nat) (i : Nat) :
    (genQuestion g i).a ≤ 999 ∧ (genQuestion g i).b ≤ 999 ∧
      ((genQuestion g i).op = Op.add →
        (genQuestion g i).answer = (genQuestion g i).a + (genQuestion g i).b) ∧
      ((genQuestion g i).op = Op.sub →
        (genQuestion g i).b ≤ (genQuestion g i).a ∧
          (genQuestion g i).answer = (genQuestion g i).a - (genQuestion g i).b) := by
  unfold genQuestion
  split
  · refine ⟨randint999_le _, randint999_le _, fun _ => rfl, fun h => ?_⟩
    exact Op.noConfusion h
  · dsimp only
    split
    · next hba =>
      refine ⟨randint999_le _, randint999_le _, fun h => ?_,
        fun _ => ⟨Nat.le_of_lt hba, rfl⟩⟩
      exact Op.noConfusion h
    · next hba =>
      refine ⟨randint999_le _, randint999_le _, fun h => ?_,
        fun _ => ⟨Nat.le_of_not_lt hba, rfl⟩⟩
      exact Op.noConfusion h

lemma generate_questions_length (n : Nat) (g : Nat → Nat) (i : Nat) :
    (generate_questions n g i).length = n := by
  induction n generalizing i with
  | zero => rfl
  | succ n ih => simp [generate_questions, ih]

/-! ## Theorems for the claims -/

/-- C5: `generate_questions n` returns exactly `n` questions; every returned
question has both operands in `[0, 999]`; an `add` question has
`answer = a + b`; a `sub` question has `a ≥ b` and `answer = a - b`. -/
theorem c5_generate_questions (n : Nat) (g : Nat → Nat) (i : Nat) :
    (generate_questions n g i).length = n ∧
      ∀ q ∈ generate_questions n g i,
        q.a ≤ 999 ∧ q.b ≤ 999 ∧
          (q.op = Op.add → q.answer = q.a + q.b) ∧
          (q.op = Op.sub → q.b ≤ q.a ∧ q.answer = q.a - q.b) := by
  refine ⟨generate_questions_length n g i, ?_⟩
  induction n generalizing i with
  | zero => simp [generate_questions]
  | succ n ih =>
    intro q hq
    simp only [generate_questions, List.mem_cons] at hq
    rcases hq with rfl | hq
    · exact genQuestion_spec g i
    · exact ih (i + 3) q hq

/-- Witness for C5 at a concrete draw stream and a concrete member. -/
theorem c5_generate_questions_witness :
    (generate_questions 2 (fun k => k) 0).length = 2 ∧
      (⟨1, 2, Op.add, 3⟩ : Question) ∈ generate_questions 2 (fun k => k) 0 ∧
      ((⟨1, 2, Op.add, 3⟩ : Question).a ≤ 999 ∧
        (⟨1, 2, Op.add, 3⟩ : Question).b ≤ 999 ∧
        ((⟨1, 2, Op.add, 3⟩ : Question).op = Op.add →
          (⟨1, 2, Op.add, 3⟩ : Question).answer =
            (⟨1, 2, Op.add, 3⟩ : Question).a + (⟨1, 2, Op.add, 3⟩ : Question).b) ∧
        ((⟨1, 2, Op.add, 3⟩ : Question).op = Op.sub →
          (⟨1, 2, Op.add, 3⟩ : Question).b ≤ (⟨1, 2, Op.add, 3⟩ : Question).a ∧
            (⟨1, 2, Op.add, 3⟩ : Question).answer =
              (⟨1, 2, Op.add, 3⟩ : Question).a - (⟨1, 2, Op.add, 3⟩ : Question).b)) :=
  ⟨(c5_generate_questions 2 (fun k => k) 0).1, by decide,
    (c5_generate_questions 2 (fun k => k) 0).2 ⟨1, 2, Op.add, 3⟩ (by decide)⟩

/-- C9: `generate_questions` is deterministic in the injected random source
and uses no other state: two runs whose draw streams agree on the consumed
positions (three draws per question) produce identical question lists. -/
theorem c9_deterministic (n : Nat) (g1 g2 : Nat → Nat) (i : Nat)
    (h : ∀ k, k < 3 * n → g1 (i + k) = g2 (i + k)) :
    generate_questions n g1 i = generate_questions n g2 i := by
  induction n generalizing i with
  | zero => rfl
  | succ n ih =>
    have h0 : g1 i = g2 i := by simpa using h 0 (by omega)
    have h1 : g1 (i + 1) = g2 (i + 1) := h 1 (by omega)
    have h2 : g1 (i + 2) = g2 (i + 2) := h 2 (by omega)
    have hrest : ∀ k, k < 3 * n → g1 (i + 3 + k) = g2 (i + 3 + k) := by
      intro k hk
      have hh := h (k + 3) (by omega)
      have e : i + (k + 3) = i + 3 + k := by omega
      rwa [e] at hh
    simp only [generate_questions]
    rw [ih (i + 3) hrest]
    unfold genQuestion
    rw [h0, h1, h2]

/-- Witness for C9: two streams that agree on the three consumed draws (but
nowhere else) generate the same single question. -/
theorem c9_deterministic_witness :
    (∀ k, k < 3 * 1 →
        (fun j : Nat => j) (0 + k) = (fun j : Nat => if j < 3 then j else j + 7) (0 + k)) ∧
      generate_questions 1 (fun j : Nat => j) 0 =
        generate_questions 1 (fun j : Nat => if j < 3 then j else j + 7) 0 :=
  ⟨by decide, c9_deterministic 1 (fun j : Nat => j)
    (fun j : Nat => if j < 3 then j else j + 7) 0 (by decide)⟩

lemma gradeStep_eq (s : Sess) (t : String) (q : Question)
    (hq : s.questions[s.current_index]? = some q) :
    gradeStep s t =
      { s with
        session_score :=
          s.session_score + (if py_int? t = some ((q.answer : Int)) then 1 else 0),
        feedback :=
          some (if py_int? t = some ((q.answer : Int)) then "Correct!"
                else "Incorrect! The correct answer was " ++ toString q.answer ++ "."),
        current_index := s.current_index + 1 } := by
  unfold gradeStep
  rw [hq]
  by_cases hc : py_int? t = some ((q.answer : Int)) <;> simp [hc]

/-- C6: on a submission against an in-progress session (current index in
range), the answer-processing step advances the index by exactly one
regardless of correctness, leaves the question sequence (and name and
finalized score) unchanged, increments the running count iff the submitted
text parses to the current question's answer, treats an unparsable text as
an incorrect answer (no error), and records feedback for the graded
question. -/
theorem c6_answer_submission (s : Sess) (a : String) (q : Question)
    (hq : s.questions[s.current_index]? = some q) :
    (gradeStep s a).current_index = s.current_index + 1 ∧
      (gradeStep s a).questions = s.questions ∧
      (gradeStep s a).name = s.name ∧
      (gradeStep s a).final_score = s.final_score ∧
      (gradeStep s a).session_score =
        (if py_int? a = some ((q.answer : Int)) then s.session_score + 1
         else s.session_score) ∧
      (py_int? a = none → (gradeStep s a).session_score = s.session_score) ∧
      (gradeStep s a).feedback =
        some (if py_int? a = some ((q.answer : Int)) then "Correct!"
              else "Incorrect! The correct answer was "
                ++ toString q.answer ++ ".") := by
  rw [gradeStep_eq s a q hq]
  by_cases hc : py_int? a = some ((q.answer : Int)) <;> simp [hc]

/-- A concrete in-progress session with one question, used by witnesses. -/
def sessOneQ : Sess :=
  { name := "Ava", session_score := 0, questions := [⟨1, 2, Op.add, 3⟩],
    current_index := 0, feedback := none, final_score := 0 }

/-- Witness for C6: submitting the unparsable text `"abc"` against an
in-progress one-question session. -/
theorem c6_answer_submission_witness :
    (sessOneQ.questions[sessOneQ.current_index]? = some ⟨1, 2, Op.add, 3⟩) ∧
      ((gradeStep sessOneQ "abc").current_index = sessOneQ.current_index + 1 ∧
        (gradeStep sessOneQ "abc").session_score = sessOneQ.session_score) := by
  have h := c6_answer_submission sessOneQ "abc" ⟨1, 2, Op.add, 3⟩ (by decide)
  exact ⟨by decide, h.1, h.2.2.2.2.2.1 (by decide)⟩

/-- C2: a submission against a session that has already completed (its
question sequence was cleared on completion) is rejected with no state
change at all and triggers no `update_player_score` (commit) call; the
handler returns normally. -/
theorem c2_submission_after_completion (s : Sess) (raw : String)
    (h : s.questions = []) :
    (game Method.post raw s).1 = s ∧
      commitCalls (game Method.post raw s).2 = [] := by
  simp [game, h, commitCalls]

/-- Witness for C2: a concrete completed session with a stray submission. -/
theorem c2_submission_after_completion_witness :
    (({ name := "Ava", session_score := 0, questions := [], current_index := 0,
        feedback := none, final_score := 7 } : Sess).questions = []) ∧
      ((game Method.post "5"
          { name := "Ava", session_score := 0, questions := [],
            current_index := 0, feedback := none, final_score := 7 }).1 =
        { name := "Ava", session_score := 0, questions := [],
          current_index := 0, feedback := none, final_score := 7 } ∧
        commitCalls (game Method.post "5"
          { name := "Ava", session_score := 0, questions := [],
            current_index := 0, feedback := none, final_score := 7 }).2 = []) :=
  ⟨rfl, c2_submission_after_completion
    { name := "Ava", session_score := 0, questions := [], current_index := 0,
      feedback := none, final_score := 7 } "5" rfl⟩

lemma commitCalls_append (t1 t2 : List StoreCall) :
    commitCalls (t1 ++ t2) = commitCalls t1 ++ commitCalls t2 := by
  simp [commitCalls]

lemma commitCalls_reads (n : String) :
    commitCalls [StoreCall.readScore n, StoreCall.readBoard] = [] := by
  simp [commitCalls]

/-- Submitting one answer per remaining question against an in-progress
session drives it to the cleared completed state, finalizes the score, and
produces exactly one commit call carrying the accumulated correct count. -/
lemma runAnswers_complete (answers : List String) :
    ∀ s : Sess, answers ≠ [] →
      s.current_index + answers.length = s.questions.length →
      (runAnswers s answers).1.questions = [] ∧
        (runAnswers s answers).1.current_index = 0 ∧
        (runAnswers s answers).1.session_score = 0 ∧
        (runAnswers s answers).1.name = s.name ∧
        (runAnswers s answers).1.final_score =
          s.session_score + countCorrectFrom s.questions s.current_index answers ∧
        commitCalls (runAnswers s answers).2 =
          [(s.name,
            s.session_score + countCorrectFrom s.questions s.current_index answers)] := by
  induction answers with
  | nil => intro s hne _; exact absurd rfl hne
  | cons a rest ih =>
    intro s _ hlen
    simp only [List.length_cons] at hlen
    have hk : s.current_index < s.questions.length := by omega
    have hq : s.questions[s.current_index]? = some s.questions[s.current_index] :=
      List.getElem?_eq_getElem hk
    have hqe : ¬ s.questions.isEmpty = true := by
      intro he
      rw [List.isEmpty_iff.mp he] at hk
      simp at hk
    have hgrade := gradeStep_eq s (py_strip a) _ hq
    have h1idx : (gradeStep s (py_strip a)).current_index = s.current_index + 1 := by
      rw [hgrade]
    have h1qs : (gradeStep s (py_strip a)).questions = s.questions := by
      rw [hgrade]
    have h1name : (gradeStep s (py_strip a)).name = s.name := by
      rw [hgrade]
    have h1score : (gradeStep s (py_strip a)).session_score =
        s.session_score +
          (if py_int? (py_strip a) =
              some ((s.questions[s.current_index].answer : Int))
           then 1 else 0) := by
      rw [hgrade]
    have hcc : countCorrectFrom s.questions s.current_index (a :: rest) =
        (if py_int? (py_strip a) =
            some ((s.questions[s.current_index].answer : Int))
         then 1 else 0) + countCorrectFrom s.questions (s.current_index + 1) rest := by
      simp [countCorrectFrom, hq]
    simp only [runAnswers, game, if_neg hqe, h1idx, h1qs]
    by_cases hlast : rest = []
    · subst hlast
      simp only [List.length_nil] at hlen
      have hfin : s.questions.length ≤ s.current_index + 1 := by omega
      simp only [if_pos hfin, runAnswers]
      refine ⟨trivial, trivial, trivial, h1name,
        by rw [h1score]; simp [countCorrectFrom, hq], ?_⟩
      rw [h1score]
      simp [commitCalls, countCorrectFrom, hq]
    · have hrest1 : 1 ≤ rest.length := by
        rcases rest with _ | _
        · exact absurd rfl hlast
        · simp
      have hnfin : ¬ s.questions.length ≤ s.current_index + 1 := by omega
      simp only [if_neg hnfin]
      have hih := ih (gradeStep s (py_strip a)) hlast (by rw [h1idx, h1qs]; omega)
      rw [h1idx, h1qs, h1name, h1score] at hih
      refine ⟨hih.1, hih.2.1, hih.2.2.1, hih.2.2.2.1, ?_, ?_⟩
      · rw [hih.2.2.2.2.1, hcc, Nat.add_assoc]
      · rw [commitCalls_append, commitCalls_reads, List.nil_append,
          hih.2.2.2.2.2, hcc, Nat.add_assoc]

/-- C1: starting a session and submitting exactly ten answers drives the
session to the completed state (question sequence cleared, index reset,
final score recorded) and the whole interaction — session start, the ten
submissions, and a subsequent `GET` re-read of the completed session —
contains exactly one commit (`update_player_score`) call, whose delta is
the number of correctly answered questions. -/
theorem c1_completion_commits_once (name : String) (g : Nat → Nat) (i : Nat)
    (answers : List String) (h10 : answers.length = 10) :
    commitCalls ((index_post name g i).2
        ++ (runAnswers (index_post name g i).1 answers).2
        ++ (game Method.get ""
              (runAnswers (index_post name g i).1 answers).1).2)
      = [(name, countCorrectFrom (generate_questions 10 g i) 0 answers)] ∧
      (runAnswers (index_post name g i).1 answers).1.questions = [] ∧
      (runAnswers (index_post name g i).1 answers).1.current_index = 0 ∧
      (runAnswers (index_post name g i).1 answers).1.final_score
        = countCorrectFrom (generate_questions 10 g i) 0 answers := by
  have hne : answers ≠ [] := by
    intro e; rw [e] at h10; simp at h10
  have hrun := runAnswers_complete answers (index_post name g i).1 hne
    (by simp [index_post, generate_questions_length, h10])
  simp only [index_post] at hrun
  refine ⟨?_, hrun.1, hrun.2.1, by simpa using hrun.2.2.2.2.1⟩
  rw [commitCalls_append, commitCalls_append]
  have hget : commitCalls (game Method.get ""
      (runAnswers (index_post name g i).1 answers).1).2 = [] := by
    simp [game, commitCalls]
  rw [hget]
  have h1 : commitCalls (index_post name g i).2 = [] := by
    simp [index_post, commitCalls]
  rw [h1]
  simpa [index_post] using hrun.2.2.2.2.2

/-- Witness for C1: the player `"Ava"` answers all ten questions of the
all-zero draw stream correctly with the text `"0"`. -/
theorem c1_completion_commits_once_witness :
    (List.replicate 10 "0").length = 10 ∧
      (commitCalls ((index_post "Ava" (fun _ => 0) 0).2
          ++ (runAnswers (index_post "Ava" (fun _ => 0) 0).1
                (List.replicate 10 "0")).2
          ++ (game Method.get ""
                (runAnswers (index_post "Ava" (fun _ => 0) 0).1
                  (List.replicate 10 "0")).1).2)
        = [("Ava", countCorrectFrom (generate_questions 10 (fun _ => 0) 0) 0
              (List.replicate 10 "0"))] ∧
        (runAnswers (index_post "Ava" (fun _ => 0) 0).1
            (List.replicate 10 "0")).1.questions = [] ∧
        (runAnswers (index_post "Ava" (fun _ => 0) 0).1
            (List.replicate 10 "0")).1.current_index = 0 ∧
        (runAnswers (index_post "Ava" (fun _ => 0) 0).1
            (List.replicate 10 "0")).1.final_score
          = countCorrectFrom (generate_questions 10 (fun _ => 0) 0) 0
              (List.replicate 10 "0")) :=
  ⟨by decide, c1_completion_commits_once "Ava" (fun _ => 0) 0
    (List.replicate 10 "0") (by decide)⟩

/-- C10: in every session state reachable through the start and `/game`
transitions, the running score never exceeds the current index, the index
never exceeds the question count, and a state whose question sequence is
empty (the completed-and-reset marker) has score 0 and index 0. -/
theorem c10_session_invariant (s : Sess) (h : Reachable s) :
    s.session_score ≤ s.current_index ∧
      s.current_index ≤ s.questions.length ∧
      (s.questions = [] → s.session_score = 0 ∧ s.current_index = 0) := by
  induction h with
  | start name g i => simp [index_post]
  | step m raw s hs ih =>
    cases m with
    | get => simpa [game] using ih
    | post =>
      by_cases hemp : s.questions.isEmpty = true
      · simpa [game, hemp] using ih
      · rcases hqq : s.questions[s.current_index]? with _ | q
        · have hge : s.questions.length ≤ s.current_index :=
            List.getElem?_eq_none_iff.mp hqq
          have hgs : gradeStep s (py_strip raw) = s := by
            unfold gradeStep; rw [hqq]
          simp [game, hemp, hgs, hge]
        · obtain ⟨hk, _⟩ := List.getElem?_eq_some_iff.mp hqq
          have hqe2 : s.questions ≠ [] := by
            intro e; rw [e] at hk; simp at hk
          have hgrade := gradeStep_eq s (py_strip raw) q hqq
          have h1idx : (gradeStep s (py_strip raw)).current_index =
              s.current_index + 1 := by rw [hgrade]
          have h1qs : (gradeStep s (py_strip raw)).questions = s.questions := by
            rw [hgrade]
          have h1score : (gradeStep s (py_strip raw)).session_score =
              s.session_score +
                (if py_int? (py_strip raw) = some ((q.answer : Int))
                 then 1 else 0) := by rw [hgrade]
          have hb : (if py_int? (py_strip raw) =
              some ((q.answer : Int)) then 1 else 0) ≤ 1 := by
            split_ifs <;> simp
          have h1 := ih.1
          simp only [game, if_neg hemp, h1idx, h1qs]
          by_cases hfin : s.questions.length ≤ s.current_index + 1
          · simp only [if_pos hfin]
            simp
          · simp only [if_neg hfin]
            refine ⟨?_, ?_, ?_⟩
            · rw [h1score, h1idx]; omega
            · rw [h1idx, h1qs]; omega
            · rw [h1qs]; exact fun he => absurd he hqe2

/-- Witness for C10: the invariant at a concrete freshly started session. -/
theorem c10_session_invariant_witness :
    Reachable (index_post "Ava" (fun _ => 0) 0).1 ∧
      ((index_post "Ava" (fun _ => 0) 0).1.session_score ≤
          (index_post "Ava" (fun _ => 0) 0).1.current_index ∧
        (index_post "Ava" (fun _ => 0) 0).1.current_index ≤
          (index_post "Ava" (fun _ => 0) 0).1.questions.length ∧
        ((index_post "Ava" (fun _ => 0) 0).1.questions = [] →
          (index_post "Ava" (fun _ => 0) 0).1.session_score = 0 ∧
            (index_post "Ava" (fun _ => 0) 0).1.current_index = 0)) :=
  ⟨Reachable.start "Ava" (fun _ => 0) 0,
    c10_session_invariant (index_post "Ava" (fun _ => 0) 0).1
      (Reachable.start "Ava" (fun _ => 0) 0)⟩

lemma find?_map_set (l : List (Nat × Pool)) (pid : Nat) (q : Pool)
    (h : (l.find? (fun e => e.1 == pid)).isSome) :
    (l.map (fun e => if e.1 == pid then (pid, q) else e)).find?
      (fun e => e.1 == pid) = some (pid, q) := by
  induction l with
  | nil => simp at h
  | cons e t ih =>
    by_cases he : e.1 == pid
    · simp [List.find?, he]
    · rw [List.find?_cons_of_neg _ (by simpa using he)] at h
      simp only [List.map_cons, if_neg he]
      rw [List.find?_cons_of_neg _ (by simpa using he)]
      exact ih h

lemma findPool_setPool (s : GState) (pid : Nat) (q : Pool)
    (h : (s.findPool pid).isSome) :
    (s.setPool pid q).findPool pid = some q := by
  unfold GState.findPool at h ⊢
  unfold GState.setPool
  rw [Option.isSome_map'] at h
  rw [find?_map_set s.pools pid q h]
  rfl

/-- C3 (amended): every `execute_query` call that acquires a connection
releases it, in all three outcomes, back to the free list of the pool
object it was acquired from — the `finally` block never leaks it from that
pool — though on a connectivity failure that pool object is no longer the
global pool (see the counterexample for the original claim). -/
theorem c3_connection_released (s : GState) (out : Outcome) (pid : Nat)
    (c : Conn)
    (hp : (execute_query s out).1.acquiredPool = some pid)
    (hc : (execute_query s out).1.acquiredConn = some c) :
    ∃ p, ((execute_query s out).2).findPool pid = some p ∧ c ∈ p.free := by
  unfold execute_query at hp hc ⊢
  rcases hgd : get_db_pool s with ⟨po, s1⟩
  simp only [hgd] at hp hc ⊢
  cases po with
  | none => simp at hp
  | some pid0 =>
    rcases hfp : s1.findPool pid0 with _ | p
    · simp only [hfp] at hp
      simp at hp
    · simp only [hfp] at hp hc ⊢
      have hsome : (s1.findPool pid0).isSome := by rw [hfp]; rfl
      cases out with
      | success =>
        dsimp only at hp hc ⊢
        obtain rfl : pid0 = pid := by simpa using hp
        obtain rfl : (Pool.getconn pid0 p).1 = c := by simpa using hc
        refine ⟨_, findPool_setPool s1 pid0 _ hsome, ?_⟩
        simp [Pool.putconn]
      | statementError =>
        dsimp only at hp hc ⊢
        obtain rfl : pid0 = pid := by simpa using hp
        obtain rfl : (Pool.getconn pid0 p).1 = c := by simpa using hc
        refine ⟨_, findPool_setPool s1 pid0 _ hsome, ?_⟩
        simp [Pool.putconn]
      | connError =>
        dsimp only at hp hc ⊢
        obtain rfl : pid0 = pid := by simpa using hp
        obtain rfl : (Pool.getconn pid0 p).1 = c := by simpa using hc
        have hpools : ∀ x : GState, ∀ i : Nat,
            ({ x with dbPool := none } : GState).findPool i = x.findPool i := by
          intro x i
          unfold GState.findPool
          simp
        rw [hpools]
        refine ⟨_, findPool_setPool s1 pid0 _ hsome, ?_⟩
        simp [Pool.putconn]

/-- A fresh configured gateway state: `DATABASE_URL` set, no pool yet. -/
def gwFresh : GState :=
  { databaseUrl := true, pools := [], dbPool := none, nextPoolId := 0 }

/-- Witness for C3 (amended): a statement-level error on a fresh gateway
still returns the acquired connection to its pool. -/
theorem c3_connection_released_witness :
    ((execute_query gwFresh Outcome.statementError).1.acquiredPool = some 0) ∧
      ((execute_query gwFresh Outcome.statementError).1.acquiredConn = some (0, 0)) ∧
      (∃ p, ((execute_query gwFresh Outcome.statementError).2).findPool 0 = some p ∧
        (0, 0) ∈ p.free) :=
  ⟨by decide, by decide,
    c3_connection_released gwFresh
      Outcome.statementError 0 (0, 0) (by decide) (by decide)⟩

/-- Counterexample to C3 as stated: after a connectivity failure the global
pool reference is discarded, so the connection — although returned to the
pool object it came from — is not in the pool that serves the next call.
Starting from a fresh configured gateway, the `connError` call acquires
connection `(0, 0)` from pool `0`; the next call is served by the freshly
created pool `1`, whose connections do not include `(0, 0)`. -/
theorem c3_not_released_to_serving_pool :
    (execute_query gwFresh Outcome.connError).1.acquiredConn = some (0, 0) ∧
      (execute_query gwFresh Outcome.connError).2.dbPool = none ∧
      (execute_query (execute_query gwFresh Outcome.connError).2
        Outcome.success).1.acquiredPool = some 1 ∧
      (execute_query (execute_query gwFresh Outcome.connError).2
        Outcome.success).2.findPool 1 =
        some { free := [(1, 0)], inUse := [], spawned := 1 } ∧
      ¬ (0, 0) ∈ ({ free := [(1, 0)], inUse := [], spawned := 1 } : Pool).free := by
  decide

/-- C4: whenever the Gateway reports unavailability (the statement does not
run and commit — including the permanently disabled case of a missing
`DATABASE_URL`), every Player Store operation degrades: the score lookup
returns `none`, the leaderboard returns `[]`, and `create_player`,
`update_player_score` and `prune_players` leave the table untouched; all
are total functions, so no exception reaches the caller. -/
theorem c4_store_degrades (st : St) (out : Outcome) (name : String)
    (delta : Int) (now : Nat) (limit m : Nat)
    (h : (execute_query st.gw out).1.ran = false) :
    (get_player_score st out name).1 = none ∧
      (get_leaderboard st out limit).1 = [] ∧
      (create_player st out name now).db = st.db ∧
      (update_player_score st out name delta now).db = st.db ∧
      (prune_players st out m).db = st.db := by
  refine ⟨?_, ?_, ?_, ?_, ?_⟩ <;>
    simp [get_player_score, get_leaderboard, create_player,
      update_player_score, prune_players, h]

/-- A store state whose gateway is permanently disabled: no `DATABASE_URL`. -/
def stDisabled : St :=
  { gw := { databaseUrl := false, pools := [], dbPool := none, nextPoolId := 0 },
    db := { rows := [], nextId := 1 } }

/-- Witness for C4: with no `DATABASE_URL` configured, all five operations
degrade on a concrete state. -/
theorem c4_store_degrades_witness :
    ((execute_query stDisabled.gw Outcome.success).1.ran = false) ∧
      ((get_player_score stDisabled Outcome.success "Ava").1 = none ∧
        (get_leaderboard stDisabled Outcome.success 3).1 = [] ∧
        (create_player stDisabled Outcome.success "Ava" 5).db = stDisabled.db ∧
        (update_player_score stDisabled Outcome.success "Ava" 7 5).db =
          stDisabled.db ∧
        (prune_players stDisabled Outcome.success 100).db = stDisabled.db) :=
  ⟨by decide,
    c4_store_degrades stDisabled Outcome.success "Ava" 7 5 3 100 (by decide)⟩

lemma find?_map_update (rows : List PlayerRow) (name : String)
    (upd : PlayerRow → PlayerRow) (hupd : ∀ r, (upd r).name = r.name) :
    (rows.map (fun r => if r.name == name then upd r else r)).find?
        (fun r => r.name == name) =
      (rows.find? (fun r => r.name == name)).map upd := by
  induction rows with
  | nil => rfl
  | cons r t ih =>
    by_cases h : r.name == name
    · simp only [List.map_cons, if_pos h]
      have hL : List.find? (fun x => x.name == name)
          (upd r :: t.map (fun x => if x.name == name then upd x else x)) =
          some (upd r) :=
        List.find?_cons_of_pos _ (by simpa [hupd] using h)
      have hR : List.find? (fun x => x.name == name) (r :: t) = some r :=
        List.find?_cons_of_pos _ h
      rw [hL, hR]
      rfl
    · simp only [List.map_cons, if_neg h]
      have hL : List.find? (fun x => x.name == name)
          (r :: t.map (fun x => if x.name == name then upd x else x)) =
          List.find? (fun x => x.name == name)
            (t.map (fun x => if x.name == name then upd x else x)) :=
        List.find?_cons_of_neg _ h
      have hR : List.find? (fun x => x.name == name) (r :: t) =
          List.find? (fun x => x.name == name) t :=
        List.find?_cons_of_neg _ h
      rw [hL, hR, ih]

/-- C7: `update_player_score` adds its delta with a single statement
(`total_score = total_score + delta`) and refreshes `last_played`: from a
stored total of 0, committing `d1` and then `d2` yields `d1 + d2`, and the
row's `last_played` is the second commit's timestamp. -/
theorem c7_commit_adds (db : DB) (name : String) (d1 d2 : Int) (t1 t2 : Nat)
    (h : sql_get_score db name = some 0) :
    sql_get_score
        (sql_update_score (sql_update_score db name d1 t1) name d2 t2) name =
      some (d1 + d2) ∧
      ((sql_update_score (sql_update_score db name d1 t1) name d2 t2).rows.find?
          (fun r => r.name == name)).map (fun r => r.last_played) = some t2 := by
  unfold sql_get_score at h
  rcases hf : db.rows.find? (fun r => r.name == name) with _ | r0
  · rw [hf] at h; simp at h
  · rw [hf] at h
    have h0 : r0.total_score = 0 := by simpa using h
    unfold sql_get_score sql_update_score
    rw [find?_map_update _ name
        (fun r => { r with total_score := r.total_score + d2, last_played := t2 })
        (fun r => rfl),
      find?_map_update _ name
        (fun r => { r with total_score := r.total_score + d1, last_played := t1 })
        (fun r => rfl),
      hf]
    simp [h0]

/-- A one-row table holding `"Ava"` with a zero total. -/
def dbAvaZero : DB :=
  { rows := [{ id := 1, name := "Ava", total_score := 0, last_played := 4 }],
    nextId := 2 }

/-- Witness for C7: committing 3 then 4 for `"Ava"` starting from 0. -/
theorem c7_commit_adds_witness :
    (sql_get_score dbAvaZero "Ava" = some 0) ∧
      (sql_get_score
          (sql_update_score (sql_update_score dbAvaZero "Ava" 3 10) "Ava" 4 20)
          "Ava" = some (3 + 4) ∧
        ((sql_update_score (sql_update_score dbAvaZero "Ava" 3 10) "Ava" 4 20).rows.find?
            (fun r => r.name == "Ava")).map (fun r => r.last_played) = some 20) :=
  ⟨by decide, c7_commit_adds dbAvaZero "Ava" 3 4 10 20 (by decide)⟩

/-- C8: the single set-based delete of `prune_players` leaves exactly
`min m (row count)` rows, the retained rows are, up to order, exactly the
first `m` of the table sorted by `last_played` descending (the `m` most
recently played), and when the table has at most `m` rows the delete is a
no-op. Requires distinct `id`s, the `SERIAL PRIMARY KEY` invariant. -/
theorem c8_prune (db : DB) (m : Nat)
    (h : (db.rows.map (fun r => r.id)).Nodup) :
    (sql_prune db m).rows.length = min m db.rows.length ∧
      (sql_prune db m).rows.Perm ((sortByLastPlayed db.rows).take m) ∧
      (db.rows.length ≤ m → sql_prune db m = db) := by
  have hperm : (sortByLastPlayed db.rows).Perm db.rows :=
    List.perm_insertionSort _ _
  have hrw : (sql_prune db m).rows =
      db.rows.filter (fun r =>
        decide (r.id ∈ ((sortByLastPlayed db.rows).take m).map
          (fun r => r.id))) := rfl
  have hnd : ((sortByLastPlayed db.rows).map (fun r => r.id)).Nodup :=
    ((hperm.map (fun r => r.id)).symm).nodup h
  have hsplit : (sortByLastPlayed db.rows).map (fun r => r.id) =
      ((sortByLastPlayed db.rows).take m).map (fun r => r.id) ++
        ((sortByLastPlayed db.rows).drop m).map (fun r => r.id) := by
    rw [← List.map_append, List.take_append_drop]
  have hdisj : List.Disjoint
      (((sortByLastPlayed db.rows).take m).map (fun r => r.id))
      (((sortByLastPlayed db.rows).drop m).map (fun r => r.id)) := by
    rw [hsplit] at hnd
    exact (List.nodup_append.mp hnd).2.2
  have hftake : ((sortByLastPlayed db.rows).take m).filter
      (fun r => decide (r.id ∈ ((sortByLastPlayed db.rows).take m).map
        (fun r => r.id))) = (sortByLastPlayed db.rows).take m := by
    apply List.filter_eq_self.mpr
    intro r hr
    exact decide_eq_true (List.mem_map_of_mem _ hr)
  have hfdrop : ((sortByLastPlayed db.rows).drop m).filter
      (fun r => decide (r.id ∈ ((sortByLastPlayed db.rows).take m).map
        (fun r => r.id))) = [] := by
    apply List.filter_eq_nil_iff.mpr
    intro r hr hmem
    exact hdisj (of_decide_eq_true hmem) (List.mem_map_of_mem _ hr)
  have hfsorted : (sortByLastPlayed db.rows).filter
      (fun r => decide (r.id ∈ ((sortByLastPlayed db.rows).take m).map
        (fun r => r.id))) = (sortByLastPlayed db.rows).take m := by
    have hx : (sortByLastPlayed db.rows).filter
        (fun r => decide (r.id ∈ ((sortByLastPlayed db.rows).take m).map
          (fun r => r.id))) =
        ((sortByLastPlayed db.rows).take m ++
          (sortByLastPlayed db.rows).drop m).filter
          (fun r => decide (r.id ∈ ((sortByLastPlayed db.rows).take m).map
            (fun r => r.id))) := by
      rw [List.take_append_drop]
    rw [hx, List.filter_append, hftake, hfdrop, List.append_nil]
  have hp2 : (sql_prune db m).rows.Perm ((sortByLastPlayed db.rows).take m) := by
    rw [hrw]
    have hpf := (hperm.filter (fun r =>
      decide (r.id ∈ ((sortByLastPlayed db.rows).take m).map
        (fun r => r.id)))).symm
    rw [hfsorted] at hpf
    exact hpf
  refine ⟨?_, hp2, ?_⟩
  · rw [hp2.length_eq, List.length_take, hperm.length_eq]
  · intro hle
    have htake : (sortByLastPlayed db.rows).take m = sortByLastPlayed db.rows :=
      List.take_of_length_le (by rw [hperm.length_eq]; exact hle)
    have hall : db.rows.filter (fun r =>
        decide (r.id ∈ ((sortByLastPlayed db.rows).take m).map
          (fun r => r.id))) = db.rows := by
      apply List.filter_eq_self.mpr
      intro r hr
      apply decide_eq_true
      rw [htake]
      exact List.mem_map_of_mem _ (hperm.mem_iff.mpr hr)
    have heq : sql_prune db m = { db with rows := db.rows.filter (fun r =>
        decide (r.id ∈ ((sortByLastPlayed db.rows).take m).map
          (fun r => r.id))) } := rfl
    rw [heq, hall]

/-- A three-player table with distinct ids and distinct `last_played`. -/
def dbThree : DB :=
  { rows := [{ id := 1, name := "a", total_score := 2, last_played := 5 },
             { id := 2, name := "b", total_score := 9, last_played := 9 },
             { id := 3, name := "c", total_score := 4, last_played := 1 }],
    nextId := 4 }

/-- Witness for C8: pruning the three-player table to its two most recently
played rows. -/
theorem c8_prune_witness :
    (dbThree.rows.map (fun r => r.id)).Nodup ∧
      ((sql_prune dbThree 2).rows.length = min 2 dbThree.rows.length ∧
        (sql_prune dbThree 2).rows.Perm ((sortByLastPlayed dbThree.rows).take 2) ∧
        (dbThree.rows.length ≤ 2 → sql_prune dbThree 2 = dbThree)) :=
  ⟨by decide, c8_prune dbThree 2 (by decide)⟩

end SumGame
